import Mathlib

/-!
Verification of the simplehttp middleware-composition and request-context core.

The definitions below are a shallow embedding of the Go sources:
  middleware.go            (RequestHeader, HeaderParser, CORS, Timeout, ...)
  framework/fiber/server.go  (Server.applyMiddleware, RouterGroup)
  framework/fiber/context.go (FiberContext: header accessors, GetHeaders)
  framework/fiber/adapter.go (Adapter, handleError)
  errors.go                (MedaError, NewError)
  ratelimit middleware     (RateLimit, getLimiter, Allow, RateLimiter)
  cache.go                 (SimpleCache, MemoryCache)

Conventions: header maps are association lists with exact-key lookup (all
reads and writes in the modelled code use the same literal keys), HTTP
bodies are a small JSON value type, and the per-request fiber context is a
record threaded through handlers in state-passing style.  External
libraries (useragent parsing, goutil authorization parsing) are modelled
as function parameters; the x/time/rate token bucket is modelled by its
documented integer-grain semantics.
-/

namespace SimpleHttp

/-- A small JSON value type, standing for the `interface{}` payloads the Go
code serializes as JSON response bodies. -/
inductive JVal where
  | null
  | str (s : String)
  | num (n : Int)
  | obj (fields : List (String × JVal))
  | arr (elems : List JVal)

/-- Errors returned by handlers: either a structured `MedaError` (numeric
code, message, optional details, errors.go) or an arbitrary Go `error`
carrying only a message. -/
inductive Err where
  | meda (code : Int) (message : String) (details : Option JVal)
  | generic (message : String)

/-- `HeaderAuthorization` from middleware.go.  The Go field `Type` is
spelled `Type'` because `Type` is reserved in Lean. -/
structure HeaderAuthorization where
  Raw : String
  Type' : String
  Token : String
deriving DecidableEq, Repr

/-- `RequestHeader` from middleware.go: the denormalized header snapshot. -/
structure RequestHeader where
  Authorization : HeaderAuthorization
  MedaAPIKey : String
  APIKey : String
  PrivateToken : String
  Code : String
  UserAgent : String
  AcceptType : String
  TraceID : String
  RequestID : String
  Origin : String
  ForwardedFor : String
  RealIP : String
  ConnectingIP : String
  TrueIP : String
  RemoteIP : String
  Browser : String
  BrowserVersion : String
  PlatformOS : String
  PlatformOSVersion : String
  Platform : String
  Device : String
deriving DecidableEq, Repr

/-- Values storable in the context's key-value store (`fiber.Ctx.Locals`):
either a parsed header snapshot or some other JSON-like payload. -/
inductive LVal where
  | header (h : RequestHeader)
  | jval (v : JVal)

/-- Response bodies: `c.JSON` writes a JSON document, `c.String` a plain
string. -/
inductive RespBody where
  | jsonOf (v : JVal)
  | strOf (s : String)

/-- An emitted HTTP response: status code plus body. -/
structure Resp where
  status : Int
  body : RespBody

/-- Exact-key association-list lookup (shared by header maps, the locals
store, the rate-limit store and the cache store). -/
def alookup {α : Type} : List (String × α) → String → Option α
  | [], _ => none
  | (k0, v0) :: rest, k => if k0 = k then some v0 else alookup rest k

/-- `http.Header.Get` / fasthttp header read: empty string when absent. -/
def hget (l : List (String × String)) (k : String) : String :=
  (alookup l k).getD ""

/-- `Header.Set`: replace the entry for a key, appending when absent. -/
def hset {α : Type} : List (String × α) → String → α → List (String × α)
  | [], k, v => [(k, v)]
  | (k0, v0) :: rest, k, v =>
    if k0 = k then (k, v) :: rest else (k0, v0) :: hset rest k v

/-- The per-request context state behind the `MedaContext` interface, as
realized by `FiberContext` (framework/fiber/context.go): request method,
request and response header maps, the `Locals` key-value store, the
remote address seen by the converted `http.Request`, the engine IP
(`ctx.IP()`), the response written so far, and an observable side-effect
log used to state execution-order properties. -/
structure Ctx where
  method : String
  reqHeaders : List (String × String)
  respHeaders : List (String × String)
  locals : List (String × LVal)
  remoteAddr : String
  fiberIP : String
  response : Option Resp
  trace : List String

/-- `FiberContext.SetRequestHeader`. -/
def Ctx.SetRequestHeader (c : Ctx) (k v : String) : Ctx :=
  { c with reqHeaders := hset c.reqHeaders k v }

/-- `FiberContext.SetResponseHeader`. -/
def Ctx.SetResponseHeader (c : Ctx) (k v : String) : Ctx :=
  { c with respHeaders := hset c.respHeaders k v }

/-- `FiberContext.SetHeader`: sets both the request and response header. -/
def Ctx.SetHeader (c : Ctx) (k v : String) : Ctx :=
  (c.SetRequestHeader k v).SetResponseHeader k v

/-- `FiberContext.GetHeader` reads the request header. -/
def Ctx.GetHeader (c : Ctx) (k : String) : String :=
  hget c.reqHeaders k

/-- `FiberContext.Set`: write into the `Locals` key-value store. -/
def Ctx.SetLocal (c : Ctx) (k : String) (v : LVal) : Ctx :=
  { c with locals := hset c.locals k v }

/-- `c.JSON(code, data)`: records the response and returns a nil error. -/
def Ctx.JSON (c : Ctx) (code : Int) (v : JVal) : Ctx × Option Err :=
  ({ c with response := some ⟨code, .jsonOf v⟩ }, none)

/-- `c.String(code, data)`: records the response and returns a nil error. -/
def Ctx.SendString (c : Ctx) (code : Int) (s : String) : Ctx × Option Err :=
  ({ c with response := some ⟨code, .strOf s⟩ }, none)

/-- `HandlerFunc`: a handler reads and mutates the context and returns an
optional error (`func(c Context) error` in state-passing form). -/
def HandlerFunc := Ctx → Ctx × Option Err

/-- `MiddlewareFunc`: a decorator on handlers. -/
def MiddlewareFunc := HandlerFunc → HandlerFunc

/-- `Server.applyMiddleware` (framework/fiber/server.go:58-63): the Go loop
runs `i` from `len(middleware)-1` down to `0`, doing
`handler = middleware[i].Handle(handler)` — i.e. a fold over the reversed
list starting from the terminal handler. -/
def applyMiddleware (mws : List MiddlewareFunc) (handler : HandlerFunc) : HandlerFunc :=
  mws.reverse.foldl (fun acc m => m acc) handler

/-- Append an event to the context's side-effect log. -/
def logEvt (s : String) (c : Ctx) : Ctx :=
  { c with trace := c.trace ++ [s] }

/-- An instrumented middleware that logs `name:pre` before calling `next`
and `name:post` after it returns, used to observe execution order. -/
def logMW (name : String) : MiddlewareFunc := fun next c =>
  let r := next (logEvt (name ++ ":pre") c)
  (logEvt (name ++ ":post") r.1, r.2)

/-- An instrumented terminal handler that logs one event and succeeds. -/
def logHandler (name : String) : HandlerFunc := fun c =>
  (logEvt name c, none)

/-- The server-level state relevant to routing: its registered middleware
list (`Server.middleware`, appended to by `Server.Use`). -/
structure Server where
  middleware : List MiddlewareFunc

/-- `Server.Use`: append middleware in registration order. -/
def Server.Use (s : Server) (mws : List MiddlewareFunc) : Server :=
  { s with middleware := s.middleware ++ mws }

/-- `RouterGroup` (framework/fiber/server.go): a path-prefix (Go field
`prefix`, spelled `prefixPath` here) plus its own middleware list.  The
`server` back-pointer is passed explicitly where needed. -/
structure RouterGroup where
  prefixPath : String
  middleware : List MiddlewareFunc

/-- `Server.Group` (server.go:125-130): a fresh group with the given
prefix and no group middleware (the Go struct literal leaves the
`middleware` slice nil). -/
def Server.Group (_s : Server) (p : String) : RouterGroup :=
  { prefixPath := p, middleware := [] }

/-- `RouterGroup.Group` (server.go:287-293): the child concatenates the
prefixes and is created with `make([]MedaMiddleware, 0)` — an empty
middleware list of its own. -/
def RouterGroup.Group (g : RouterGroup) (p : String) : RouterGroup :=
  { prefixPath := g.prefixPath ++ p, middleware := [] }

/-- `RouterGroup.Use` (server.go:295-297): append to the group's list. -/
def RouterGroup.Use (g : RouterGroup) (mws : List MiddlewareFunc) : RouterGroup :=
  { g with middleware := g.middleware ++ mws }

/-- `RouterGroup.applyMiddleware` (server.go:228-240): first the loop over
the group's own middleware (reverse order), then the loop over the
server-level middleware (reverse order). -/
def RouterGroup.applyMiddleware (g : RouterGroup) (s : Server) (handler : HandlerFunc) : HandlerFunc :=
  SimpleHttp.applyMiddleware s.middleware (SimpleHttp.applyMiddleware g.middleware handler)

/-- `getAllowedOrigin` (middleware.go:274-286): `"*"` for an empty
allow-list; the request origin when some entry is `"*"` or equals it;
otherwise the first configured entry. -/
def getAllowedOrigin (allowedOrigins : List String) (origin : String) : String :=
  if allowedOrigins.length = 0 then "*"
  else if allowedOrigins.any (fun allowed => allowed == "*" || allowed == origin) then origin
  else allowedOrigins.headD ""

/-- `CORSConfig` (middleware.go), with `MaxAge` already converted to whole
seconds as the middleware does when formatting the header. -/
structure CORSConfig where
  allowOrigins : List String
  allowMethods : List String
  allowHeaders : List String
  exposeHeaders : List String
  allowCredentials : Bool
  maxAgeSeconds : Int

/-- The header-setting the CORS middleware performs on every request
(middleware.go:239-246): Access-Control-Allow-Origin always, and
Access-Control-Allow-Credentials when credentials are allowed. -/
def corsCommon (cfg : CORSConfig) (c : Ctx) : Ctx :=
  let c1 := c.SetResponseHeader "Access-Control-Allow-Origin"
    (getAllowedOrigin cfg.allowOrigins (hget c.reqHeaders "Origin"))
  if cfg.allowCredentials then c1.SetResponseHeader "Access-Control-Allow-Credentials" "true"
  else c1

/-- The OPTIONS branch of the CORS middleware (middleware.go:248-266):
set the preflight headers and short-circuit with `c.String(204, "")`. -/
def corsPreflight (cfg : CORSConfig) (c : Ctx) : Ctx × Option Err :=
  let c1 := c.SetResponseHeader "Access-Control-Allow-Methods" (String.intercalate "," cfg.allowMethods)
  let c2 := c1.SetResponseHeader "Access-Control-Allow-Headers" (String.intercalate "," cfg.allowHeaders)
  let c3 := if cfg.exposeHeaders.length > 0 then
      c2.SetResponseHeader "Access-Control-Expose-Headers" (String.intercalate "," cfg.exposeHeaders)
    else c2
  let c4 := if cfg.maxAgeSeconds > 0 then
      c3.SetResponseHeader "Access-Control-Max-Age" (toString cfg.maxAgeSeconds)
    else c3
  c4.SendString 204 ""

/-- The handler returned by the `CORS` middleware (middleware.go:233-270)
wrapped around `next`. -/
def CORSHandler (cfg : CORSConfig) (next : HandlerFunc) : HandlerFunc := fun c =>
  let c1 := corsCommon cfg c
  if c.method = "OPTIONS" then corsPreflight cfg c1 else next c1

/-- The JSON document fiber emits for a `*MedaError` value (fields `code`,
`message`, and `details` with omitempty). -/
def medaErrJson (code : Int) (message : String) (details : Option JVal) : JVal :=
  .obj ([("code", .num code), ("message", .str message)] ++
    (match details with
     | some d => [("details", d)]
     | none => []))

/-- `handleError` (fiber adapter): a structured `*MedaError` is emitted as
JSON with its own code; any other error becomes a 500 JSON body with one
field `error` holding the message. -/
def handleError (c : Ctx) (e : Err) : Ctx × Option Err :=
  match e with
  | .meda code msg det => c.JSON code (medaErrJson code msg det)
  | .generic msg => c.JSON 500 (.obj [("error", .str msg)])

/-- `Adapter` (fiber adapter): run the composed handler; if it returns a
non-nil error, hand it to `handleError`. -/
def Adapter (h : HandlerFunc) : Ctx → Ctx × Option Err := fun c =>
  match h c with
  | (c1, some e) => handleError c1 e
  | (c1, none) => (c1, none)

/-- The state of one `rate.Limiter` token bucket from golang.org/x/time/rate
at integer grain: current tokens and the time of the last update. -/
structure RateLimiterState where
  tokens : Int
  lastTime : Nat
deriving DecidableEq, Repr

/-- `rate.NewLimiter(limit, burst)`: a bucket that starts full. -/
def newLimiter (burst : Int) (now : Nat) : RateLimiterState :=
  { tokens := burst, lastTime := now }

/-- `rate.Limiter.Allow` at integer grain: refill `rate * elapsed` tokens
capped at the burst size, then consume one token when available. -/
def limiterAllow (rps burst : Int) (st : RateLimiterState) (now : Nat) :
    Bool × RateLimiterState :=
  let t := min burst (st.tokens + rps * Int.ofNat (now - st.lastTime))
  if 1 ≤ t then (true, { tokens := t - 1, lastTime := now })
  else (false, { tokens := t, lastTime := now })

/-- `RateLimit`: configured rates plus the shared per-key limiter map. -/
structure RateLimit where
  requestsPerSecond : Int
  burstSize : Int
  store : List (String × RateLimiterState)
deriving DecidableEq, Repr

/-- `newRateLimiter(config)`: empty store. -/
def newRateLimiter (rps burst : Int) : RateLimit :=
  { requestsPerSecond := rps, burstSize := burst, store := [] }

/-- `RateLimit.getLimiter`: return the key's limiter, creating and
retaining a fresh full bucket on first sight of the key. -/
def RateLimit.getLimiter (rl : RateLimit) (key : String) (now : Nat) :
    RateLimiterState × RateLimit :=
  match alookup rl.store key with
  | some lim => (lim, rl)
  | none =>
    let lim := newLimiter rl.burstSize now
    (lim, { rl with store := hset rl.store key lim })

/-- `RateLimit.Allow`: consume one token from the key's bucket; the
limiter is shared by pointer in Go, so its new state is written back. -/
def RateLimit.Allow (rl : RateLimit) (key : String) (now : Nat) : Bool × RateLimit :=
  let p := rl.getLimiter key now
  let q := limiterAllow rl.requestsPerSecond rl.burstSize p.1 now
  (q.1, { p.2 with store := hset p.2.store key q.2 })

/-- One request through the handler returned by the `RateLimiter`
middleware: on an exhausted bucket return the structured 429 error
without calling `next`; otherwise run `next`.  The shared `RateLimit`
state is threaded explicitly. -/
def rateLimiterStep (keyOf : Ctx → String) (next : HandlerFunc)
    (rl : RateLimit) (now : Nat) (c : Ctx) : RateLimit × (Ctx × Option Err) :=
  let key := keyOf c
  let p := rl.Allow key now
  if p.1 then (p.2, next c)
  else (p.2, (c, some (Err.meda 429 "rate limit exceeded" none)))

/-- One stored cache entry (`cacheItem` in cache.go): value + absolute
expiration instant. -/
structure CacheItem where
  value : JVal
  expiration : Nat

/-- The `MemoryCache` data map. -/
def MemoryCacheData := List (String × CacheItem)

/-- `MemoryCache.Get` (cache.go:65-71): a miss when the key is absent or
`time.Now().After(expiration)` — lazy expiration on read. -/
def memGet (data : MemoryCacheData) (key : String) (now : Nat) : Option JVal :=
  match alookup data key with
  | none => none
  | some item => if item.expiration < now then none else some item.value

/-- One request through the handler returned by the `SimpleCache`
middleware (cache.go:32-46): on a hit answer `c.JSON(200, cached)`
without calling `next`; on a miss call `next`.  The store is threaded
explicitly; the middleware never writes to it. -/
def simpleCacheStep (keyFunc : Ctx → String) (data : MemoryCacheData)
    (now : Nat) (next : HandlerFunc) (c : Ctx) :
    MemoryCacheData × (Ctx × Option Err) :=
  match memGet data (keyFunc c) now with
  | some cached => (data, c.JSON 200 cached)
  | none => (data, next c)

/-- A handler together with its running duration, used to model the race
in the Timeout middleware: the second component is the time the spawned
goroutine takes to finish. -/
def TimedHandler := Ctx → (Ctx × Option Err) × Nat

/-- `Timeout` (middleware.go:380-403): derive a context that cancels after
`config.ReadTimeout`, run `next` on a separate goroutine, and select on
completion versus cancellation.  The goroutine is never killed: it runs
to completion (so its context effects land), but when the deadline fires
first its result is discarded and the caller gets the structured
504 "request timeout" error at the deadline instant. -/
def Timeout (readTimeout : Nat) (next : TimedHandler) : TimedHandler := fun c =>
  let r := next c
  if readTimeout < r.2 then
    ((r.1.1, some (Err.meda 504 "request timeout" none)), readTimeout)
  else r

/-- The result of `useragent.Parse` (external mileusna/useragent library),
abstracted to the fields `FromHttpRequest` reads. -/
structure UA where
  Device : String
  Name : String
  VersionNoFull : String
  OS : String
  OSVersion : String
  Mobile : Bool
  Tablet : Bool
  Desktop : Bool
  Bot : Bool
deriving DecidableEq, Repr

/-- The `Platform` field assignment in `FromHttpRequest`
(middleware.go:139-150): four independent `if`s, later ones override. -/
def platformOf (agent : UA) : String :=
  let p := ""
  let p := if agent.Mobile then "mobile" else p
  let p := if agent.Tablet then "tablet" else p
  let p := if agent.Desktop then "desktop" else p
  if agent.Bot then "bot" else p

/-- `RequestHeader.FromHttpRequest` (middleware.go:100-151): fill every
field from the request headers and remote address.  `authParse` stands
for the external `encryption.GetAuthorizationFromHeader` and `uaParse`
for `useragent.Parse`. -/
def FromHttpRequest (authParse : String → String × String) (uaParse : String → UA)
    (reqHeaders : List (String × String)) (remoteAddr : String) : RequestHeader :=
  let raw := hget reqHeaders "authorization"
  let tt := authParse raw
  let agent := uaParse (hget reqHeaders "User-Agent")
  { Authorization := { Raw := raw, Type' := tt.1, Token := tt.2 }
    MedaAPIKey := hget reqHeaders "MEDA_API_KEY"
    APIKey := hget reqHeaders "API_KEY"
    PrivateToken := hget reqHeaders "PRIVATE_TOKEN"
    Code := hget reqHeaders "code"
    UserAgent := hget reqHeaders "User-Agent"
    AcceptType := hget reqHeaders "Accept"
    TraceID := hget reqHeaders "X-Trace-ID"
    RequestID := hget reqHeaders "X-Request-ID"
    Origin := hget reqHeaders "Origin"
    ForwardedFor := hget reqHeaders "X-Forwarded-For"
    RealIP := hget reqHeaders "X-Real-IP"
    ConnectingIP := hget reqHeaders "CF-Connecting-IP"
    TrueIP := hget reqHeaders "True-Client-IP"
    RemoteIP := remoteAddr
    Browser := agent.Name
    BrowserVersion := agent.VersionNoFull
    PlatformOS := agent.OS
    PlatformOSVersion := agent.OSVersion
    Platform := platformOf agent
    Device := agent.Device }

/-- `FiberContext.GetHeaders` (framework/fiber/context.go:66-110): return
the snapshot cached in `Locals` under `simplehttp.header` when one is
there; otherwise build a fresh one from the converted request — its
headers and remote address — then apply the IP fallbacks, which re-read
the request headers and the engine IP. -/
def Ctx.GetHeaders (authParse : String → String × String) (uaParse : String → UA)
    (c : Ctx) : RequestHeader :=
  match alookup c.locals "simplehttp.header" with
  | some (.header h) => h
  | _ =>
    let h := FromHttpRequest authParse uaParse c.reqHeaders c.remoteAddr
    let h := if h.RemoteIP = "" then { h with RemoteIP := c.fiberIP } else h
    let h := if h.RealIP = "" then { h with RealIP := hget c.reqHeaders "X-Real-IP" } else h
    let h := if h.ConnectingIP = "" then { h with ConnectingIP := hget c.reqHeaders "CF-Connecting-IP" } else h
    let h := if h.TrueIP = "" then { h with TrueIP := hget c.reqHeaders "True-Client-IP" } else h
    h

/-- `HeaderParser` middleware (middleware.go:171-193): snapshot the headers
and store the result under `request_header`, then call `next`. -/
def HeaderParser (authParse : String → String × String) (uaParse : String → UA) :
    MiddlewareFunc := fun next c =>
  let header := c.GetHeaders authParse uaParse
  next (c.SetLocal "request_header" (.header header))

/-- An empty GET-request context used for concrete evaluations. -/
def ctx0 : Ctx :=
  { method := "GET", reqHeaders := [], respHeaders := [], locals := [],
    remoteAddr := "", fiberIP := "", response := none, trace := [] }

/- Association-list lemmas shared by the header, locals, limiter and cache
stores. -/

lemma alookup_hset_self {α : Type} (l : List (String × α)) (k : String) (v : α) :
    alookup (hset l k v) k = some v := by
  induction l with
  | nil => simp [hset, alookup]
  | cons p rest ih =>
    by_cases hk : p.1 = k
    · simp [hset, hk, alookup]
    · simp [hset, hk, alookup, ih]

lemma alookup_hset_ne {α : Type} (l : List (String × α)) (k k2 : String) (v : α)
    (h : k ≠ k2) : alookup (hset l k v) k2 = alookup l k2 := by
  induction l with
  | nil => simp [hset, alookup, h]
  | cons p rest ih =>
    by_cases hk : p.1 = k
    · simp [hset, hk, alookup, h, ih]
    · by_cases hk2 : p.1 = k2
      · simp [hset, hk, alookup, hk2, Ne.symm h]
      · simp [hset, hk, alookup, hk2, ih]

lemma hget_hset_self (l : List (String × String)) (k v : String) :
    hget (hset l k v) k = v := by
  simp [hget, alookup_hset_self]

lemma hget_hset_ne (l : List (String × String)) (k k2 v : String) (h : k ≠ k2) :
    hget (hset l k v) k2 = hget l k2 := by
  simp [hget, alookup_hset_ne _ _ _ _ h]

lemma hget_setRespHeader_self (c : Ctx) (k v : String) :
    hget (c.SetResponseHeader k v).respHeaders k = v := by
  simp [Ctx.SetResponseHeader, hget_hset_self]

lemma hget_setRespHeader_ne (c : Ctx) (k v k2 : String) (h : k ≠ k2) :
    hget (c.SetResponseHeader k v).respHeaders k2 = hget c.respHeaders k2 := by
  simp [Ctx.SetResponseHeader, hget_hset_ne _ _ _ _ h]

/- Middleware-chain composition lemmas. -/

/-- The downward Go loop in `applyMiddleware` computes the right fold of
the middleware list around the terminal handler. -/
lemma applyMiddleware_eq_foldr (mws : List MiddlewareFunc) (h : HandlerFunc) :
    applyMiddleware mws h = mws.foldr (fun m acc => m acc) h := by
  unfold applyMiddleware
  rw [List.foldl_reverse]

/-- Execution-order lemma: wrapping an inner handler whose only effect on
the log is appending `L` in a chain of logging middleware produces the
pre-events in list order, then `L`, then the post-events in reverse. -/
lemma chain_foldr_trace (names : List String) (inner : HandlerFunc) (L : List String)
    (hinner : ∀ c : Ctx, (inner c).1.trace = c.trace ++ L) (c : Ctx) :
    (((names.map logMW).foldr (fun m acc => m acc) inner) c).1.trace
      = c.trace ++ names.map (fun n => n ++ ":pre") ++ L
        ++ names.reverse.map (fun n => n ++ ":post") := by
  induction names generalizing c with
  | nil => simpa using hinner c
  | cons n ns ih =>
    simp only [List.map_cons, List.foldr_cons, logMW, logEvt]
    rw [ih]
    simp [List.append_assoc]

/-- `applyMiddleware` with logging middleware yields the onion trace. -/
lemma applyMiddleware_log_trace (names : List String) (inner : HandlerFunc)
    (L : List String) (hinner : ∀ c : Ctx, (inner c).1.trace = c.trace ++ L) (c : Ctx) :
    ((applyMiddleware (names.map logMW) inner) c).1.trace
      = c.trace ++ names.map (fun n => n ++ ":pre") ++ L
        ++ names.reverse.map (fun n => n ++ ":post") := by
  rw [applyMiddleware_eq_foldr]
  exact chain_foldr_trace names inner L hinner c

lemma logHandler_trace (name : String) (c : Ctx) :
    (logHandler name c).1.trace = c.trace ++ [name] := by
  simp [logHandler, logEvt]

/-- C1: for every registered middleware list and terminal handler, the
composed effective handler is the right fold `m0 (m1 (... (mN H)))` of the
list around the handler, and invoking it on a chain of instrumented
middleware runs the pre-logic in list order, then the handler, then the
post-logic in reverse order. -/
theorem applyMiddleware_onion (mws : List MiddlewareFunc) (h : HandlerFunc)
    (names : List String) (c : Ctx) :
    applyMiddleware mws h = mws.foldr (fun m acc => m acc) h
    ∧ ((applyMiddleware (names.map logMW) (logHandler "H")) c).1.trace
        = c.trace ++ names.map (fun n => n ++ ":pre") ++ ["H"]
          ++ names.reverse.map (fun n => n ++ ":post") := by
  refine ⟨applyMiddleware_eq_foldr mws h, ?_⟩
  exact applyMiddleware_log_trace names (logHandler "H") ["H"] (logHandler_trace "H") c

/-- C2 counterexample: a child group created from a parent group does NOT
inherit the parent's middleware list.  With server middleware empty, a
parent group `/api` carrying one logging middleware `A`, and the child
`parent.Group "/v1"`, a route registered on the child runs without any of
`A`'s logic: the composed handler's trace is just the terminal handler's
event, and `A`'s pre-event never occurs. -/
theorem group_inherit_counterexample :
    ((Server.Group ⟨[]⟩ "/api").Use [logMW "A"]).middleware.length = 1
    ∧ (((Server.Group ⟨[]⟩ "/api").Use [logMW "A"]).Group "/v1").middleware = []
    ∧ ((((Server.Group ⟨[]⟩ "/api").Use [logMW "A"]).Group "/v1").applyMiddleware
        ⟨[]⟩ (logHandler "H") ctx0).1.trace = ["H"]
    ∧ "A:pre" ∉ ((((Server.Group ⟨[]⟩ "/api").Use [logMW "A"]).Group "/v1").applyMiddleware
        ⟨[]⟩ (logHandler "H") ctx0).1.trace := by
  refine ⟨rfl, rfl, rfl, ?_⟩
  show "A:pre" ∉ ["H"]
  decide

/-- C2 (amended): a child group created from a parent group starts with an
EMPTY middleware list of its own — it inherits the parent's prefix (child
prefix is the literal concatenation) but not the parent's middleware.
For a route registered on a group, the server-level middleware execute
first (outermost), then the group's own middleware, then the handler;
middleware registered on an ancestor group never execute. -/
theorem group_child_semantics (g : RouterGroup) (p : String)
    (serverNames childNames : List String) (pr : String) (c : Ctx) :
    (g.Group p).middleware = []
    ∧ (g.Group p).prefixPath = g.prefixPath ++ p
    ∧ ((RouterGroup.applyMiddleware ⟨pr, childNames.map logMW⟩ ⟨serverNames.map logMW⟩
          (logHandler "H")) c).1.trace
        = c.trace ++ serverNames.map (fun n => n ++ ":pre")
          ++ (childNames.map (fun n => n ++ ":pre") ++ ["H"]
              ++ childNames.reverse.map (fun n => n ++ ":post"))
          ++ serverNames.reverse.map (fun n => n ++ ":post") := by
  refine ⟨rfl, rfl, ?_⟩
  unfold RouterGroup.applyMiddleware
  exact applyMiddleware_log_trace serverNames _
    (childNames.map (fun n => n ++ ":pre") ++ ["H"]
      ++ childNames.reverse.map (fun n => n ++ ":post"))
    (fun c1 => by
      rw [applyMiddleware_log_trace childNames (logHandler "H") ["H"]
        (logHandler_trace "H") c1]
      simp [List.append_assoc]) c

/-- The loop test in `getAllowedOrigin` succeeds exactly when the list has
a wildcard entry or an entry equal to the request origin. -/
lemma any_star_or_eq (l : List String) (o : String) :
    (l.any fun allowed => allowed == "*" || allowed == o) = true ↔ "*" ∈ l ∨ o ∈ l := by
  rw [List.any_eq_true]
  constructor
  · rintro ⟨x, hx, hp⟩
    rcases Bool.or_eq_true _ _ |>.mp hp with h1 | h1
    · exact Or.inl (beq_iff_eq.mp h1 ▸ hx)
    · exact Or.inr (beq_iff_eq.mp h1 ▸ hx)
  · rintro (h | h)
    · exact ⟨"*", h, by simp⟩
    · exact ⟨o, h, by simp⟩

/-- C3: the CORS middleware always sets `Access-Control-Allow-Origin` to
`getAllowedOrigin(allowed, origin)`, which is `"*"` for an empty
allow-list, echoes the request origin when the list holds a wildcard or
an exactly matching entry, and otherwise falls back to the first
configured origin (a permissive fallback, never a rejection).  The two
concrete conjuncts check the documented quirk for
`AllowOrigins = [https a.com, https b.com]`. -/
theorem cors_allow_origin_spec (cfg : CORSConfig) (c : Ctx) :
    hget (corsCommon cfg c).respHeaders "Access-Control-Allow-Origin"
      = getAllowedOrigin cfg.allowOrigins (hget c.reqHeaders "Origin")
    ∧ (∀ (l : List String) (o : String),
        getAllowedOrigin l o =
          if l = [] then "*"
          else if "*" ∈ l ∨ o ∈ l then o
          else l.headD "")
    ∧ getAllowedOrigin ["https://a.com", "https://b.com"] "https://a.com" = "https://a.com"
    ∧ getAllowedOrigin ["https://a.com", "https://b.com"] "https://evil.com" = "https://a.com" := by
  refine ⟨?_, ?_, by decide, by decide⟩
  · unfold corsCommon
    by_cases hc : cfg.allowCredentials
    · rw [if_pos hc, hget_setRespHeader_ne _ _ _ _ (by decide), hget_setRespHeader_self]
    · rw [if_neg hc, hget_setRespHeader_self]
  · intro l o
    unfold getAllowedOrigin
    rcases l with _ | ⟨a, rest⟩
    · simp
    · have hlen : ¬((a :: rest).length = 0) := by simp
      have hne : ¬(a :: rest = ([] : List String)) := by simp
      rw [if_neg hlen, if_neg hne]
      by_cases hm : "*" ∈ a :: rest ∨ o ∈ a :: rest
      · rw [if_pos ((any_star_or_eq _ o).mpr hm), if_pos hm]
      · rw [if_neg (fun hx => hm ((any_star_or_eq _ o).mp hx)), if_neg hm]

/-- C4: for an OPTIONS request the CORS middleware sets the preflight
headers (Allow-Methods, Allow-Headers, and the optional Expose-Headers
and Max-Age), short-circuits with status 204 and an empty body, returns
no error, and the wrapped handler is never invoked: the outcome is
identical for any two `next` handlers. -/
theorem cors_preflight_spec (cfg : CORSConfig) (next next2 : HandlerFunc) (c : Ctx)
    (hm : c.method = "OPTIONS") :
    (CORSHandler cfg next c).1.response = some ⟨204, .strOf ""⟩
    ∧ (CORSHandler cfg next c).2 = none
    ∧ CORSHandler cfg next c = CORSHandler cfg next2 c
    ∧ hget (CORSHandler cfg next c).1.respHeaders "Access-Control-Allow-Methods"
        = String.intercalate "," cfg.allowMethods
    ∧ hget (CORSHandler cfg next c).1.respHeaders "Access-Control-Allow-Headers"
        = String.intercalate "," cfg.allowHeaders
    ∧ (cfg.exposeHeaders.length > 0 →
        hget (CORSHandler cfg next c).1.respHeaders "Access-Control-Expose-Headers"
          = String.intercalate "," cfg.exposeHeaders)
    ∧ (cfg.maxAgeSeconds > 0 →
        hget (CORSHandler cfg next c).1.respHeaders "Access-Control-Max-Age"
          = toString cfg.maxAgeSeconds) := by
  have he : CORSHandler cfg next c = corsPreflight cfg (corsCommon cfg c) := by
    simp [CORSHandler, hm]
  have he2 : CORSHandler cfg next2 c = corsPreflight cfg (corsCommon cfg c) := by
    simp [CORSHandler, hm]
  refine ⟨?_, ?_, he.trans he2.symm, ?_, ?_, ?_, ?_⟩
  · rw [he]; simp [corsPreflight, Ctx.SendString]
  · rw [he]; simp [corsPreflight, Ctx.SendString]
  · rw [he]
    unfold corsPreflight
    simp only [Ctx.SendString]
    split_ifs with h1 h2 h2
    · rw [hget_setRespHeader_ne _ _ _ _ (by decide),
        hget_setRespHeader_ne _ _ _ _ (by decide),
        hget_setRespHeader_ne _ _ _ _ (by decide), hget_setRespHeader_self]
    · rw [hget_setRespHeader_ne _ _ _ _ (by decide),
        hget_setRespHeader_ne _ _ _ _ (by decide), hget_setRespHeader_self]
    · rw [hget_setRespHeader_ne _ _ _ _ (by decide),
        hget_setRespHeader_ne _ _ _ _ (by decide), hget_setRespHeader_self]
    · rw [hget_setRespHeader_ne _ _ _ _ (by decide), hget_setRespHeader_self]
  · rw [he]
    unfold corsPreflight
    simp only [Ctx.SendString]
    split_ifs with h1 h2 h2
    · rw [hget_setRespHeader_ne _ _ _ _ (by decide),
        hget_setRespHeader_ne _ _ _ _ (by decide), hget_setRespHeader_self]
    · rw [hget_setRespHeader_ne _ _ _ _ (by decide), hget_setRespHeader_self]
    · rw [hget_setRespHeader_ne _ _ _ _ (by decide), hget_setRespHeader_self]
    · rw [hget_setRespHeader_self]
  · intro hx
    rw [he]
    unfold corsPreflight
    simp only [Ctx.SendString, hx, if_pos]
    split_ifs with h1
    · rw [hget_setRespHeader_ne _ _ _ _ (by decide), hget_setRespHeader_self]
    · rw [hget_setRespHeader_self]
  · intro hx
    rw [he]
    unfold corsPreflight
    simp only [Ctx.SendString, hx, if_pos]
    split_ifs with h1
    · rw [hget_setRespHeader_self]
    · rw [hget_setRespHeader_self]

/-- A concrete CORS configuration used for witnesses. -/
def corsCfg0 : CORSConfig :=
  { allowOrigins := ["https://a.com", "https://b.com"]
    allowMethods := ["GET", "POST"]
    allowHeaders := ["Origin", "Content-Type"]
    exposeHeaders := []
    allowCredentials := false
    maxAgeSeconds := 86400 }

/-- A concrete OPTIONS-request context. -/
def ctxOptions : Ctx := { ctx0 with method := "OPTIONS" }

/-- Witness for the C4 preflight theorem at a concrete configuration,
request and two visibly different wrapped handlers. -/
theorem cors_preflight_spec_witness :
    ctxOptions.method = "OPTIONS"
    ∧ ((CORSHandler corsCfg0 (logHandler "inner") ctxOptions).1.response
          = some ⟨204, .strOf ""⟩
        ∧ (CORSHandler corsCfg0 (logHandler "inner") ctxOptions).2 = none
        ∧ CORSHandler corsCfg0 (logHandler "inner") ctxOptions
            = CORSHandler corsCfg0 (fun c1 => (c1, some (Err.generic "boom"))) ctxOptions
        ∧ hget (CORSHandler corsCfg0 (logHandler "inner") ctxOptions).1.respHeaders
            "Access-Control-Allow-Methods" = String.intercalate "," corsCfg0.allowMethods
        ∧ hget (CORSHandler corsCfg0 (logHandler "inner") ctxOptions).1.respHeaders
            "Access-Control-Allow-Headers" = String.intercalate "," corsCfg0.allowHeaders
        ∧ (corsCfg0.exposeHeaders.length > 0 →
            hget (CORSHandler corsCfg0 (logHandler "inner") ctxOptions).1.respHeaders
              "Access-Control-Expose-Headers" = String.intercalate "," corsCfg0.exposeHeaders)
        ∧ (corsCfg0.maxAgeSeconds > 0 →
            hget (CORSHandler corsCfg0 (logHandler "inner") ctxOptions).1.respHeaders
              "Access-Control-Max-Age" = toString corsCfg0.maxAgeSeconds)) :=
  ⟨rfl, cors_preflight_spec corsCfg0 (logHandler "inner")
    (fun c1 => (c1, some (Err.generic "boom"))) ctxOptions rfl⟩

/-- C5: when the wrapped chain does not finish by the derived deadline
(`config.ReadTimeout`), the Timeout middleware returns the structured
504 "request timeout" error at the deadline instant; the spawned
execution is not killed — it runs to completion in the background (its
context effects land) and its own eventual result is discarded. -/
theorem timeout_overrun_spec (readTimeout : Nat) (next : TimedHandler) (c : Ctx)
    (hslow : readTimeout < (next c).2) :
    (Timeout readTimeout next c).1.2 = some (Err.meda 504 "request timeout" none)
    ∧ (Timeout readTimeout next c).1.1 = (next c).1.1
    ∧ (Timeout readTimeout next c).2 = readTimeout := by
  unfold Timeout
  rw [if_pos hslow]
  exact ⟨rfl, rfl, rfl⟩

/-- Witness for the C5 theorem: a handler that needs 5 time units against
a 1-unit deadline; its own error result `late` is discarded. -/
theorem timeout_overrun_spec_witness :
    (1 : Nat) < ((fun c1 => ((logEvt "work" c1, some (Err.generic "late")), 5) : TimedHandler) ctx0).2
    ∧ ((Timeout 1 (fun c1 => ((logEvt "work" c1, some (Err.generic "late")), 5)) ctx0).1.2
          = some (Err.meda 504 "request timeout" none)
        ∧ (Timeout 1 (fun c1 => ((logEvt "work" c1, some (Err.generic "late")), 5)) ctx0).1.1
          = ((fun c1 => ((logEvt "work" c1, some (Err.generic "late")), 5) : TimedHandler) ctx0).1.1
        ∧ (Timeout 1 (fun c1 => ((logEvt "work" c1, some (Err.generic "late")), 5)) ctx0).2 = 1) :=
  ⟨by decide, timeout_overrun_spec 1 (fun c1 => ((logEvt "work" c1, some (Err.generic "late")), 5))
    ctx0 (by decide)⟩

/-- Stores are untouched at other keys by a single `Allow` call. -/
lemma allow_store_other (rl : RateLimit) (key : String) (now : Nat) (k2 : String)
    (h : k2 ≠ key) :
    alookup (rl.Allow key now).2.store k2 = alookup rl.store k2 := by
  unfold RateLimit.Allow RateLimit.getLimiter
  cases halo : alookup rl.store key <;>
    simp [halo, alookup_hset_ne _ _ _ _ (Ne.symm h)]

/-- C6: the rate-limiter middleware keeps one token-bucket limiter per
key, created lazily on first sight of the key and retained (the store
holds the key afterwards, and other keys' limiters are untouched); each
request consumes one token, failing with the structured 429 error and
never invoking `next` when the bucket is empty, and invoking `next`
otherwise.  The final conjunct is the concrete scenario: with
RequestsPerSecond = 1 and BurstSize = 1, of two immediate requests for
key "k" the first is allowed and the second is denied. -/
theorem rate_limiter_spec (keyOf : Ctx → String) (next : HandlerFunc)
    (rl : RateLimit) (now : Nat) (c : Ctx) :
    (alookup rl.store (keyOf c) = none →
      (alookup (rateLimiterStep keyOf next rl now c).1.store (keyOf c)).isSome = true)
    ∧ (∀ k2, k2 ≠ keyOf c →
        alookup (rateLimiterStep keyOf next rl now c).1.store k2 = alookup rl.store k2)
    ∧ ((rl.Allow (keyOf c) now).1 = false →
        (rateLimiterStep keyOf next rl now c).2
          = (c, some (Err.meda 429 "rate limit exceeded" none)))
    ∧ ((rl.Allow (keyOf c) now).1 = true →
        (rateLimiterStep keyOf next rl now c).2 = next c)
    ∧ ((newRateLimiter 1 1).Allow "k" 0).1 = true
    ∧ (((newRateLimiter 1 1).Allow "k" 0).2.Allow "k" 0).1 = false := by
  refine ⟨?_, ?_, ?_, ?_, by decide, by decide⟩
  · intro _
    have hs : (rateLimiterStep keyOf next rl now c).1.store
        = (rl.Allow (keyOf c) now).2.store := by
      cases hp : (rl.Allow (keyOf c) now).1 <;> simp [rateLimiterStep, hp]
    rw [hs]
    unfold RateLimit.Allow RateLimit.getLimiter
    cases halo : alookup rl.store (keyOf c) <;> simp [halo, alookup_hset_self]
  · intro k2 hk2
    have hs : (rateLimiterStep keyOf next rl now c).1.store
        = (rl.Allow (keyOf c) now).2.store := by
      cases hp : (rl.Allow (keyOf c) now).1 <;> simp [rateLimiterStep, hp]
    rw [hs]
    exact allow_store_other rl (keyOf c) now k2 hk2
  · intro hdeny
    unfold rateLimiterStep
    rw [if_neg (by simp [hdeny])]
  · intro hallow
    unfold rateLimiterStep
    rw [if_pos hallow]

/-- Witness for the C6 theorem: key "k", empty store, burst 1, rate 1;
the first request runs `next`, the second is denied with the 429 error,
and the limiter for "k" exists after the first request. -/
theorem rate_limiter_spec_witness :
    (alookup (newRateLimiter 1 1).store "k" = none
      ∧ (alookup (rateLimiterStep (fun _ => "k") (logHandler "H") (newRateLimiter 1 1) 0 ctx0).1.store
          "k").isSome = true)
    ∧ (((newRateLimiter 1 1).Allow "k" 0).1 = true
      ∧ (rateLimiterStep (fun _ => "k") (logHandler "H") (newRateLimiter 1 1) 0 ctx0).2
          = logHandler "H" ctx0)
    ∧ ((((newRateLimiter 1 1).Allow "k" 0).2.Allow "k" 0).1 = false
      ∧ (rateLimiterStep (fun _ => "k") (logHandler "H")
            ((newRateLimiter 1 1).Allow "k" 0).2 0 ctx0).2
          = (ctx0, some (Err.meda 429 "rate limit exceeded" none))) :=
  ⟨⟨rfl, (rate_limiter_spec (fun _ => "k") (logHandler "H") (newRateLimiter 1 1) 0 ctx0).1 rfl⟩,
   ⟨by decide, (rate_limiter_spec (fun _ => "k") (logHandler "H") (newRateLimiter 1 1) 0
      ctx0).2.2.2.1 (by decide)⟩,
   ⟨by decide, (rate_limiter_spec (fun _ => "k") (logHandler "H")
      ((newRateLimiter 1 1).Allow "k" 0).2 0 ctx0).2.2.1 (by decide)⟩⟩

/-- C7: the error-response adapter emits exactly one response for every
error returned by the composed handler: a structured `MedaError` becomes
a JSON response with exactly its own status code, any other error a JSON
body with single field `error` holding its message under status 500; the
adapter itself returns no further error. -/
theorem adapter_error_spec (h : HandlerFunc) (c c1 : Ctx) (e : Err)
    (hrun : h c = (c1, some e)) (_hfresh : c1.response = none) :
    (Adapter h c).2 = none
    ∧ (Adapter h c).1.response
        = some (match e with
            | .meda code msg det => ⟨code, .jsonOf (medaErrJson code msg det)⟩
            | .generic msg => ⟨500, .jsonOf (.obj [("error", .str msg)])⟩) := by
  cases e <;> simp [Adapter, hrun, handleError, Ctx.JSON]

/-- Witness for the C7 theorem: a handler failing with the structured
404 error produces a 404 JSON response, applied to the adapter theorem at
a concrete context. -/
theorem adapter_error_spec_witness :
    ((fun c1 => (c1, some (Err.meda 404 "resource not found" none)) : HandlerFunc) ctx0
        = (ctx0, some (Err.meda 404 "resource not found" none))
      ∧ ctx0.response = none)
    ∧ ((Adapter (fun c1 => (c1, some (Err.meda 404 "resource not found" none))) ctx0).2 = none
      ∧ (Adapter (fun c1 => (c1, some (Err.meda 404 "resource not found" none))) ctx0).1.response
          = some ⟨404, .jsonOf (medaErrJson 404 "resource not found" none)⟩) :=
  ⟨⟨rfl, rfl⟩, adapter_error_spec (fun c1 => (c1, some (Err.meda 404 "resource not found" none)))
    ctx0 ctx0 (Err.meda 404 "resource not found" none) rfl rfl⟩

/-- C8: the cache middleware answers a fresh (unexpired) hit directly as
JSON with hard-coded status 200 — whatever status the original response
had is not stored and cannot be replayed — without invoking the wrapped
handler (the outcome is independent of `next`); on a miss it invokes the
wrapped handler; the store is never written by the middleware, and an
entry whose expiration has passed behaves as a miss (lazy expiration on
read). -/
theorem cache_middleware_spec (keyFunc : Ctx → String) (data : MemoryCacheData)
    (now : Nat) (next : HandlerFunc) (c : Ctx) :
    (∀ v, memGet data (keyFunc c) now = some v →
        simpleCacheStep keyFunc data now next c
            = (data, ({ c with response := some ⟨200, .jsonOf v⟩ }, none))
          ∧ ∀ next2, simpleCacheStep keyFunc data now next2 c
              = simpleCacheStep keyFunc data now next c)
    ∧ (memGet data (keyFunc c) now = none →
        simpleCacheStep keyFunc data now next c = (data, next c))
    ∧ (simpleCacheStep keyFunc data now next c).1 = data
    ∧ (∀ item, alookup data (keyFunc c) = some item → item.expiration < now →
        memGet data (keyFunc c) now = none) := by
  refine ⟨?_, ?_, ?_, ?_⟩
  · intro v hv
    constructor
    · simp [simpleCacheStep, hv, Ctx.JSON]
    · intro next2
      simp [simpleCacheStep, hv]
  · intro hmiss
    simp [simpleCacheStep, hmiss]
  · unfold simpleCacheStep
    cases memGet data (keyFunc c) now <;> rfl
  · intro item hitem hexp
    simp [memGet, hitem, hexp]

/-- A concrete cache store with one entry for key "k" expiring at 10. -/
def cacheData0 : MemoryCacheData := [("k", ⟨.str "v", 10⟩)]

/-- Witness for the C8 theorem: at time 5 the entry is a hit served as a
200 JSON response regardless of the wrapped handler; at time 20 the same
entry has lazily expired and the wrapped handler runs. -/
theorem cache_middleware_spec_witness :
    (memGet cacheData0 "k" 5 = some (.str "v")
      ∧ simpleCacheStep (fun _ => "k") cacheData0 5 (logHandler "H") ctx0
          = (cacheData0, ({ ctx0 with response := some ⟨200, .jsonOf (.str "v")⟩ }, none)))
    ∧ (alookup cacheData0 "k" = some ⟨.str "v", 10⟩
      ∧ (10 : Nat) < 20
      ∧ memGet cacheData0 "k" 20 = none
      ∧ simpleCacheStep (fun _ => "k") cacheData0 20 (logHandler "H") ctx0
          = (cacheData0, logHandler "H" ctx0)) :=
  ⟨⟨rfl, ((cache_middleware_spec (fun _ => "k") cacheData0 5 (logHandler "H") ctx0).1
      (.str "v") rfl).1⟩,
   ⟨rfl, by decide,
    (cache_middleware_spec (fun _ => "k") cacheData0 20 (logHandler "H") ctx0).2.2.2
      ⟨.str "v", 10⟩ rfl (by decide),
    (cache_middleware_spec (fun _ => "k") cacheData0 20 (logHandler "H") ctx0).2.1
      ((cache_middleware_spec (fun _ => "k") cacheData0 20 (logHandler "H") ctx0).2.2.2
        ⟨.str "v", 10⟩ rfl (by decide))⟩⟩

/-- A trivial stand-in for the external authorization-header parser, used
only to instantiate universally quantified theorems at concrete inputs. -/
def authParse0 : String → String × String := fun _ => ("", "")

/-- A trivial stand-in for the external user-agent parser. -/
def uaParse0 : String → UA :=
  fun _ => ⟨"", "", "", "", "", false, false, false, false⟩

/-- C9 counterexample: a response header set by earlier middleware via
`SetResponseHeader` is NOT observable in the snapshot `GetHeaders`
returns.  With no cached snapshot and `X-Request-ID` set only as a
response header, the snapshot's `RequestID` is empty, not the header
value — so the snapshot is not computed from the response headers. -/
theorem getHeaders_response_counterexample :
    hget (ctx0.SetResponseHeader "X-Request-ID" "abc").respHeaders "X-Request-ID" = "abc"
    ∧ alookup (ctx0.SetResponseHeader "X-Request-ID" "abc").locals "simplehttp.header" = none
    ∧ ((ctx0.SetResponseHeader "X-Request-ID" "abc").GetHeaders authParse0 uaParse0).RequestID = ""
    ∧ ((ctx0.SetResponseHeader "X-Request-ID" "abc").GetHeaders authParse0 uaParse0).RequestID
        ≠ hget (ctx0.SetResponseHeader "X-Request-ID" "abc").respHeaders "X-Request-ID" := by
  refine ⟨rfl, rfl, rfl, ?_⟩
  intro hx
  exact absurd hx (by decide)

/-- C9 (amended): `GetHeaders` returns the snapshot cached in the
key-value store (under the fiber adapter's parsed-header key) when one
exists; otherwise it computes a fresh snapshot from the request headers
and engine address data only — the response headers are never consulted,
so a response header is observable in the snapshot only when it was also
written to the request headers, as `SetHeader` does. -/
theorem getHeaders_spec (ap : String → String × String) (up : String → UA)
    (c : Ctx) (h : RequestHeader) (v : String) :
    (alookup c.locals "simplehttp.header" = some (.header h) →
      c.GetHeaders ap up = h)
    ∧ ((∀ hh, alookup c.locals "simplehttp.header" ≠ some (.header hh)) →
      ∀ rh, Ctx.GetHeaders ap up { c with respHeaders := rh } = c.GetHeaders ap up)
    ∧ (alookup c.locals "simplehttp.header" = none →
      ((c.SetHeader "X-Request-ID" v).GetHeaders ap up).RequestID = v) := by
  refine ⟨?_, ?_, ?_⟩
  · intro hcached
    simp [Ctx.GetHeaders, hcached]
  · intro hnone rh
    unfold Ctx.GetHeaders
    rcases halo : alookup c.locals "simplehttp.header" with _ | lv
    · rfl
    · cases lv with
      | header hh => exact absurd halo (hnone hh)
      | jval jv => rfl
  · intro hnone
    have hloc : alookup (c.SetHeader "X-Request-ID" v).locals "simplehttp.header" = none := by
      simp [Ctx.SetHeader, Ctx.SetRequestHeader, Ctx.SetResponseHeader, hnone]
    have hreq : (c.SetHeader "X-Request-ID" v).reqHeaders
        = hset c.reqHeaders "X-Request-ID" v := by
      simp [Ctx.SetHeader, Ctx.SetRequestHeader, Ctx.SetResponseHeader]
    unfold Ctx.GetHeaders
    rw [hloc]
    simp only [hreq]
    have hrid : (FromHttpRequest ap up (hset c.reqHeaders "X-Request-ID" v)
        (c.SetHeader "X-Request-ID" v).remoteAddr).RequestID = v := by
      simp [FromHttpRequest, hget_hset_self]
    split_ifs <;> simpa using hrid

/-- A concrete nonempty header snapshot for witnesses. -/
def rh0 : RequestHeader :=
  { Authorization := ⟨"Bearer t", "Bearer", "t"⟩
    MedaAPIKey := "", APIKey := "", PrivateToken := "", Code := ""
    UserAgent := "ua", AcceptType := "", TraceID := "", RequestID := "rid-1"
    Origin := "", ForwardedFor := "", RealIP := "", ConnectingIP := ""
    TrueIP := "", RemoteIP := "9.9.9.9", Browser := "", BrowserVersion := ""
    PlatformOS := "", PlatformOSVersion := "", Platform := "", Device := "" }

/-- Witness for the C9 amended theorem: a cached snapshot is returned
as-is, and with an empty locals store a `SetHeader`-written request ID is
observable in the fresh snapshot. -/
theorem getHeaders_spec_witness :
    (alookup (ctx0.SetLocal "simplehttp.header" (.header rh0)).locals "simplehttp.header"
        = some (.header rh0)
      ∧ (ctx0.SetLocal "simplehttp.header" (.header rh0)).GetHeaders authParse0 uaParse0 = rh0)
    ∧ (alookup ctx0.locals "simplehttp.header" = none
      ∧ ((ctx0.SetHeader "X-Request-ID" "rid-2").GetHeaders authParse0 uaParse0).RequestID
          = "rid-2") :=
  ⟨⟨rfl, (getHeaders_spec authParse0 uaParse0 (ctx0.SetLocal "simplehttp.header" (.header rh0))
      rh0 "rid-2").1 rfl⟩,
   ⟨rfl, (getHeaders_spec authParse0 uaParse0 ctx0 rh0 "rid-2").2.2 rfl⟩⟩

/-- C10: `GetHeaders` performs no context mutation in the source, so two
calls within one request with no intervening mutation of the request
state (headers, key-value store, addresses) return snapshots that are
equal — field by field, since `RequestHeader` equality is structural. -/
theorem getHeaders_idempotent (ap : String → String × String) (up : String → UA)
    (c c2 : Ctx)
    (hreq : c2.reqHeaders = c.reqHeaders) (hloc : c2.locals = c.locals)
    (hra : c2.remoteAddr = c.remoteAddr) (hip : c2.fiberIP = c.fiberIP) :
    c2.GetHeaders ap up = c.GetHeaders ap up := by
  unfold Ctx.GetHeaders
  rw [hreq, hloc, hra, hip]

/-- Witness for the C10 theorem: two calls on the same concrete request
state return equal snapshots. -/
theorem getHeaders_idempotent_witness :
    ctx0.reqHeaders = ctx0.reqHeaders ∧ ctx0.locals = ctx0.locals
    ∧ ctx0.remoteAddr = ctx0.remoteAddr ∧ ctx0.fiberIP = ctx0.fiberIP
    ∧ ctx0.GetHeaders authParse0 uaParse0 = ctx0.GetHeaders authParse0 uaParse0 :=
  ⟨rfl, rfl, rfl, rfl,
   getHeaders_idempotent authParse0 uaParse0 ctx0 ctx0 rfl rfl rfl rfl⟩

end SimpleHttp
